import Mathlib

/-!
Verification of the kitedb single-file storage engine core.

This file gives a shallow embedding of the delta overlay, WAL replay,
transaction engine and checkpoint pipeline of the kitedb repository
(src/core/delta.rs, src/core/single_file.rs, src/core/single_file/transaction.rs,
src/core/single_file/vector.rs) and proves properties of the embedded
definitions.

Representation choices, used consistently below:
- Rust HashMap<K, V> is modelled as a total function K -> Option V.
- Rust HashMap<K, HashSet<T>> is modelled as a total function K -> Finset T,
  where an absent key is identified with the empty set.  This identification
  is faithful because the source eagerly removes a key whenever its set
  becomes empty (delta.rs add_edge, delete_edge, delete_node) and never
  distinguishes an absent key from an empty set in any read path.
- Rust HashSet<K> alone is modelled as K -> Bool.
- u64 and u32 are modelled as Nat; additions that the source performs in
  u64 are taken modulo 2^64 where the counter is long-lived
  (change_counter, active_snapshot_gen, next_tx_id, page arithmetic).
-/

namespace KiteDB

/-- Wrap-around modulus for u64 arithmetic. -/
def U64MOD : Nat := 2 ^ 64

-- ===========================================================================
-- Basic data model (types used by src/core/delta.rs)
-- ===========================================================================

/-- Property value variant, from the spec data model (section 3): null, bool,
i64, f64, string, bytes, f32 vector.  The concrete type (types.rs) is not
under src/, but only the shape matters for the claims below. -/
inductive PropValue where
  | nullV : PropValue
  | boolV : Bool → PropValue
  | intV : Int → PropValue
  | floatV : Float → PropValue
  | stringV : String → PropValue
  | bytesV : List Nat → PropValue
  | vectorF32 : List Float → PropValue

/-- Edge patch entry stored in the out_add/out_del/in_add/in_del sets:
an edge type together with the other endpoint (delta.rs EdgePatch). -/
structure EdgePatch where
  etype : Nat
  other : Nat
deriving DecidableEq

/-- Per-node delta record (delta.rs NodeDelta): optional key, optional label
sets, optional property map.  The property map sends a PropKeyId to
some (some v) for a set value, some none for a tombstone, none when the
key is untouched. -/
structure NodeDelta where
  key : Option String
  labels : Option (List Nat)
  labels_deleted : Option (List Nat)
  props : Option (Nat → Option (Option PropValue))

/-- The in-memory delta overlay state (delta.rs DeltaState), with the
fourteen maps cleared by DeltaState::clear. -/
@[ext]
structure DeltaState where
  created_nodes : Nat → Option NodeDelta
  deleted_nodes : Nat → Bool
  modified_nodes : Nat → Option NodeDelta
  out_add : Nat → Finset EdgePatch
  out_del : Nat → Finset EdgePatch
  in_add : Nat → Finset EdgePatch
  in_del : Nat → Finset EdgePatch
  edge_props : Nat × Nat × Nat → Option (Nat → Option (Option PropValue))
  new_labels : Nat → Option String
  new_etypes : Nat → Option String
  new_propkeys : Nat → Option String
  key_index : String → Option Nat
  key_index_deleted : String → Bool
  incoming_edge_sources : Nat → Finset Nat

/-- The empty delta overlay (DeltaState::new / the result of clear). -/
def DeltaState.empty : DeltaState where
  created_nodes := fun _ => none
  deleted_nodes := fun _ => false
  modified_nodes := fun _ => none
  out_add := fun _ => ∅
  out_del := fun _ => ∅
  in_add := fun _ => ∅
  in_del := fun _ => ∅
  edge_props := fun _ => none
  new_labels := fun _ => none
  new_etypes := fun _ => none
  new_propkeys := fun _ => none
  key_index := fun _ => none
  key_index_deleted := fun _ => false
  incoming_edge_sources := fun _ => ∅

/-- DeltaState::clear zeroes every map (delta.rs lines 96-111). -/
def DeltaState.clear (_d : DeltaState) : DeltaState := DeltaState.empty

/-- Out-side of DeltaState::add_edge (delta.rs lines 15-28): an add on a
pending delete erases the delete, otherwise the patch is inserted into
out_add. -/
def DeltaState.addEdgeOut (d : DeltaState) (src etype dst : Nat) : DeltaState :=
  let patch : EdgePatch := ⟨etype, dst⟩
  if patch ∈ d.out_del src then
    { d with out_del := fun m => if m = src then (d.out_del src).erase patch else d.out_del m }
  else
    { d with out_add := fun m => if m = src then insert patch (d.out_add m) else d.out_add m }

/-- In-side of DeltaState::add_edge (delta.rs lines 30-42): the mirror of
addEdgeOut on in_del/in_add keyed by the destination. -/
def DeltaState.addEdgeIn (d : DeltaState) (src etype dst : Nat) : DeltaState :=
  let in_patch : EdgePatch := ⟨etype, src⟩
  if in_patch ∈ d.in_del dst then
    { d with in_del := fun m => if m = dst then (d.in_del dst).erase in_patch else d.in_del m }
  else
    { d with in_add := fun m => if m = dst then insert in_patch (d.in_add m) else d.in_add m }

/-- DeltaState::add_edge with cancellation (delta.rs lines 14-49): the
out-side, the in-side, and the reverse index incoming_edge_sources
always recording the source for the destination. -/
def DeltaState.add_edge (d : DeltaState) (src etype dst : Nat) : DeltaState :=
  let d2 := (d.addEdgeOut src etype dst).addEdgeIn src etype dst
  { d2 with incoming_edge_sources :=
      fun m => if m = dst then insert src (d2.incoming_edge_sources m)
               else d2.incoming_edge_sources m }

/-- DeltaState::delete_edge with cancellation (delta.rs lines 52-77):
a delete on a pending add erases the add from out_add and in_add and
returns; otherwise the patch is inserted into out_del and in_del. -/
def DeltaState.delete_edge (d : DeltaState) (src etype dst : Nat) : DeltaState :=
  let patch : EdgePatch := ⟨etype, dst⟩
  let in_patch : EdgePatch := ⟨etype, src⟩
  if patch ∈ d.out_add src then
    { d with
      out_add := fun m => if m = src then (d.out_add src).erase patch else d.out_add m
      in_add := fun m => if m = dst then (d.in_add dst).erase in_patch else d.in_add m }
  else
    { d with
      out_del := fun m => if m = src then insert patch (d.out_del m) else d.out_del m
      in_del := fun m => if m = dst then insert in_patch (d.in_del m) else d.in_del m }

/-- DeltaState::is_edge_deleted (delta.rs lines 80-85). -/
def DeltaState.is_edge_deleted (d : DeltaState) (src etype dst : Nat) : Bool :=
  decide ((⟨etype, dst⟩ : EdgePatch) ∈ d.out_del src)

/-- DeltaState::is_edge_added (delta.rs lines 88-93). -/
def DeltaState.is_edge_added (d : DeltaState) (src etype dst : Nat) : Bool :=
  decide ((⟨etype, dst⟩ : EdgePatch) ∈ d.out_add src)

/-- DeltaState::create_node (delta.rs lines 138-151): insert a fresh
NodeDelta into created_nodes and register the key in key_index. -/
def DeltaState.create_node (d : DeltaState) (node_id : Nat) (key : Option String) : DeltaState :=
  let node_delta : NodeDelta := ⟨key, none, none, none⟩
  let created := fun m => if m = node_id then some node_delta else d.created_nodes m
  let ki :=
    match key with
    | some k => fun s => if s = k then some node_id else d.key_index s
    | none => d.key_index
  { d with created_nodes := created, key_index := ki }

/-- DeltaState::delete_node (delta.rs lines 154-193).  For a node created in
this delta: erase it from created_nodes and key_index, drop its out_add
entry, use incoming_edge_sources to cull patches pointing at it from the
sources listed there, and purge it from in_add.  Otherwise mark it in
deleted_nodes and drop modified_nodes. -/
def DeltaState.delete_node (d : DeltaState) (node_id : Nat) : DeltaState :=
  match d.created_nodes node_id with
  | some removed =>
    let ki :=
      match removed.key with
      | some k => fun s => if s = k then none else d.key_index s
      | none => d.key_index
    let out_add0 := fun m => if m = node_id then (∅ : Finset EdgePatch) else d.out_add m
    let sources := d.incoming_edge_sources node_id
    let out_add1 := fun m =>
      if m ∈ sources then (out_add0 m).filter (fun p => p.other ≠ node_id) else out_add0 m
    let in_add1 := fun m =>
      if m = node_id then (∅ : Finset EdgePatch)
      else (d.in_add m).filter (fun p => p.other ≠ node_id)
    { d with
      created_nodes := fun m => if m = node_id then none else d.created_nodes m
      key_index := ki
      out_add := out_add1
      in_add := in_add1
      incoming_edge_sources := fun m =>
        if m = node_id then (∅ : Finset Nat) else d.incoming_edge_sources m }
  | none =>
    { d with
      deleted_nodes := fun m => if m = node_id then true else d.deleted_nodes m
      modified_nodes := fun m => if m = node_id then none else d.modified_nodes m }

/-- DeltaState::is_node_created (delta.rs lines 196-198). -/
def DeltaState.is_node_created (d : DeltaState) (node_id : Nat) : Bool :=
  (d.created_nodes node_id).isSome

/-- DeltaState::is_node_deleted (delta.rs lines 201-203). -/
def DeltaState.is_node_deleted (d : DeltaState) (node_id : Nat) : Bool :=
  d.deleted_nodes node_id

/-- DeltaState::get_node_delta (delta.rs lines 206-209). -/
def DeltaState.get_node_delta (d : DeltaState) (node_id : Nat) : Option NodeDelta :=
  match d.created_nodes node_id with
  | some nd => some nd
  | none => d.modified_nodes node_id

/-- Helper shared by set_node_prop and delete_node_prop: the props map of a
NodeDelta with the map initialised to empty when absent and one entry
overwritten. -/
def NodeDelta.writeProp (nd : NodeDelta) (key_id : Nat) (v : Option PropValue) : NodeDelta :=
  let base : Nat → Option (Option PropValue) :=
    match nd.props with
    | some p => p
    | none => fun _ => none
  { nd with props := some (fun pk => if pk = key_id then some v else base pk) }

/-- DeltaState::set_node_prop (delta.rs lines 216-235): write into the
created-node delta when present, else into (or creating) the
modified-node delta. -/
def DeltaState.set_node_prop (d : DeltaState) (node_id key_id : Nat) (value : PropValue) :
    DeltaState :=
  match d.created_nodes node_id with
  | some nd =>
    { d with created_nodes := fun m =>
        if m = node_id then some (nd.writeProp key_id (some value)) else d.created_nodes m }
  | none =>
    let nd :=
      match d.modified_nodes node_id with
      | some nd => nd
      | none => (⟨none, none, none, none⟩ : NodeDelta)
    { d with modified_nodes := fun m =>
        if m = node_id then some (nd.writeProp key_id (some value)) else d.modified_nodes m }

/-- DeltaState::delete_node_prop (delta.rs lines 238-256): like
set_node_prop but writes a tombstone (None). -/
def DeltaState.delete_node_prop (d : DeltaState) (node_id key_id : Nat) : DeltaState :=
  match d.created_nodes node_id with
  | some nd =>
    { d with created_nodes := fun m =>
        if m = node_id then some (nd.writeProp key_id none) else d.created_nodes m }
  | none =>
    let nd :=
      match d.modified_nodes node_id with
      | some nd => nd
      | none => (⟨none, none, none, none⟩ : NodeDelta)
    { d with modified_nodes := fun m =>
        if m = node_id then some (nd.writeProp key_id none) else d.modified_nodes m }

/-- DeltaState::get_node_prop (delta.rs lines 259-265). -/
def DeltaState.get_node_prop (d : DeltaState) (node_id key_id : Nat) :
    Option (Option PropValue) :=
  match d.get_node_delta node_id with
  | none => none
  | some nd =>
    match nd.props with
    | none => none
    | some props => props key_id

/-- DeltaState::define_label (delta.rs lines 272-274). -/
def DeltaState.define_label (d : DeltaState) (label_id : Nat) (name : String) : DeltaState :=
  { d with new_labels := fun i => if i = label_id then some name else d.new_labels i }

/-- DeltaState::define_etype (delta.rs lines 277-279). -/
def DeltaState.define_etype (d : DeltaState) (etype_id : Nat) (name : String) : DeltaState :=
  { d with new_etypes := fun i => if i = etype_id then some name else d.new_etypes i }

/-- DeltaState::define_propkey (delta.rs lines 282-284). -/
def DeltaState.define_propkey (d : DeltaState) (propkey_id : Nat) (name : String) : DeltaState :=
  { d with new_propkeys := fun i => if i = propkey_id then some name else d.new_propkeys i }

/-- DeltaState::get_node_by_key (delta.rs lines 291-297): a key recorded in
key_index_deleted masks the lookup. -/
def DeltaState.get_node_by_key (d : DeltaState) (key : String) : Option Nat :=
  if d.key_index_deleted key then none else d.key_index key

-- ===========================================================================
-- Sequences of edge operations on the delta (for the edge-cancellation
-- invariant)
-- ===========================================================================

/-- One edge mutation, as issued against the delta overlay. -/
inductive EdgeOp where
  | add (src etype dst : Nat)
  | del (src etype dst : Nat)

/-- Apply one edge operation to a delta. -/
def applyEdgeOp (d : DeltaState) : EdgeOp → DeltaState
  | .add src etype dst => d.add_edge src etype dst
  | .del src etype dst => d.delete_edge src etype dst

/-- Apply a sequence of edge operations to a delta, left to right. -/
def applyEdgeOps (d : DeltaState) (ops : List EdgeOp) : DeltaState :=
  ops.foldl applyEdgeOp d

/-- Invariant I2: out_add and out_del never share a patch for the same
source node. -/
def edgeExclusive (d : DeltaState) : Prop :=
  ∀ (s : Nat) (p : EdgePatch), ¬(p ∈ d.out_add s ∧ p ∈ d.out_del s)

-- ===========================================================================
-- WAL records and recovery replay (src/core/single_file.rs)
-- ===========================================================================

/-- WAL record type tag (spec section 4.2; used by the replay match in
single_file.rs lines 526-593). -/
inductive WalRecordType where
  | begin | commit | rollback
  | createNode | deleteNode | addEdge | deleteEdge
  | setNodeProp | delNodeProp
  | defineLabel | defineEtype | definePropkey
  | setNodeVector | delNodeVector
deriving DecidableEq

/-- Structured WAL record payload.  The source stores payloads as bytes and
parses them per record type; here the payload carries the parsed data
directly, and the parse functions below return none on a shape mismatch,
mirroring the Option results of the parse_* functions.  The three Define*
payloads share one shape (an id and a name), as they do on the wire. -/
inductive WalPayload where
  | control : WalPayload
  | createNode (node_id : Nat) (key : Option String) : WalPayload
  | deleteNode (node_id : Nat) : WalPayload
  | addEdge (src etype dst : Nat) : WalPayload
  | deleteEdge (src etype dst : Nat) : WalPayload
  | setNodeProp (node_id key_id : Nat) (value : PropValue) : WalPayload
  | delNodeProp (node_id key_id : Nat) : WalPayload
  | defineSchema (id : Nat) (name : String) : WalPayload
  | setNodeVector (node_id key_id : Nat) (vector : List Float) : WalPayload
  | delNodeVector (node_id key_id : Nat) : WalPayload

/-- A parsed WAL record: type, transaction id, payload. -/
structure WalRecord where
  record_type : WalRecordType
  txid : Nat
  payload : WalPayload

/-- parse_create_node_payload (returns none on shape mismatch). -/
def parseCreateNodePayload : WalPayload → Option (Nat × Option String)
  | .createNode n k => some (n, k)
  | _ => none

/-- parse_delete_node_payload. -/
def parseDeleteNodePayload : WalPayload → Option Nat
  | .deleteNode n => some n
  | _ => none

/-- parse_add_edge_payload. -/
def parseAddEdgePayload : WalPayload → Option (Nat × Nat × Nat)
  | .addEdge s e t => some (s, e, t)
  | _ => none

/-- parse_delete_edge_payload. -/
def parseDeleteEdgePayload : WalPayload → Option (Nat × Nat × Nat)
  | .deleteEdge s e t => some (s, e, t)
  | _ => none

/-- parse_set_node_prop_payload. -/
def parseSetNodePropPayload : WalPayload → Option (Nat × Nat × PropValue)
  | .setNodeProp n k v => some (n, k, v)
  | _ => none

/-- parse_del_node_prop_payload. -/
def parseDelNodePropPayload : WalPayload → Option (Nat × Nat)
  | .delNodeProp n k => some (n, k)
  | _ => none

/-- parse_define_label_payload / parse_define_etype_payload /
parse_define_propkey_payload: all three parse an id and a name. -/
def parseDefinePayload : WalPayload → Option (Nat × String)
  | .defineSchema i n => some (i, n)
  | _ => none

/-- Recovery replay target: the fresh delta plus the allocator ceilings and
schema maps updated by replay (the mutable arguments of replay_wal_record
in single_file.rs lines 512-525). -/
structure ReplayState where
  delta : DeltaState
  next_node_id : Nat
  next_label_id : Nat
  next_etype_id : Nat
  next_propkey_id : Nat
  label_names : String → Option Nat
  label_ids : Nat → Option String
  etype_names : String → Option Nat
  etype_ids : Nat → Option String
  propkey_names : String → Option Nat
  propkey_ids : Nat → Option String

/-- replay_wal_record (single_file.rs lines 512-594): dispatch on the record
type, apply the mutation to the delta, bump allocator ceilings to id + 1
when the replayed id reaches the current ceiling, and mirror schema
definitions into the name maps.  Begin/Commit/Rollback and the vector and
edge-prop record types fall into the catch-all arm and are skipped. -/
def replay_wal_record (record : WalRecord) (st : ReplayState) : ReplayState :=
  match record.record_type with
  | .createNode =>
    match parseCreateNodePayload record.payload with
    | some (n, key) =>
      { st with delta := st.delta.create_node n key
                next_node_id := if st.next_node_id ≤ n then n + 1 else st.next_node_id }
    | none => st
  | .deleteNode =>
    match parseDeleteNodePayload record.payload with
    | some n => { st with delta := st.delta.delete_node n }
    | none => st
  | .addEdge =>
    match parseAddEdgePayload record.payload with
    | some (s, e, t) => { st with delta := st.delta.add_edge s e t }
    | none => st
  | .deleteEdge =>
    match parseDeleteEdgePayload record.payload with
    | some (s, e, t) => { st with delta := st.delta.delete_edge s e t }
    | none => st
  | .setNodeProp =>
    match parseSetNodePropPayload record.payload with
    | some (n, k, v) => { st with delta := st.delta.set_node_prop n k v }
    | none => st
  | .delNodeProp =>
    match parseDelNodePropPayload record.payload with
    | some (n, k) => { st with delta := st.delta.delete_node_prop n k }
    | none => st
  | .defineLabel =>
    match parseDefinePayload record.payload with
    | some (i, name) =>
      { st with delta := st.delta.define_label i name
                label_names := fun s => if s = name then some i else st.label_names s
                label_ids := fun j => if j = i then some name else st.label_ids j
                next_label_id := if st.next_label_id ≤ i then i + 1 else st.next_label_id }
    | none => st
  | .defineEtype =>
    match parseDefinePayload record.payload with
    | some (i, name) =>
      { st with delta := st.delta.define_etype i name
                etype_names := fun s => if s = name then some i else st.etype_names s
                etype_ids := fun j => if j = i then some name else st.etype_ids j
                next_etype_id := if st.next_etype_id ≤ i then i + 1 else st.next_etype_id }
    | none => st
  | .definePropkey =>
    match parseDefinePayload record.payload with
    | some (i, name) =>
      { st with delta := st.delta.define_propkey i name
                propkey_names := fun s => if s = name then some i else st.propkey_names s
                propkey_ids := fun j => if j = i then some name else st.propkey_ids j
                next_propkey_id := if st.next_propkey_id ≤ i then i + 1 else st.next_propkey_id }
    | none => st
  | _ => st

/-- Whether the WAL holds a Commit record with the given transaction id. -/
def committedTx (wal : List WalRecord) (t : Nat) : Bool :=
  wal.any (fun r => decide (r.record_type = WalRecordType.commit) && decide (r.txid = t))

/-- First-occurrence deduplication of a list of transaction ids. -/
def firstDedup : List Nat → List Nat
  | [] => []
  | t :: rest => t :: (firstDedup rest).filter (fun x => decide (x ≠ t))

/-- Modelled from the spec: extract_committed_transactions
(crate::core::wal::record, not under src/).  Per spec section 4.9 the
recoverer groups the scanned records by txid, discards any group lacking a
Commit, and hands the committed groups to replay; each group keeps its
records in WAL order.  Groups are listed by first occurrence of their txid. -/
def extractCommitted (wal : List WalRecord) : List (Nat × List WalRecord) :=
  ((firstDedup (wal.map (fun r => r.txid))).filter (fun t => committedTx wal t)).map
    (fun t => (t, wal.filter (fun r => decide (r.txid = t))))

/-- Replay one committed group into the accumulated replay state. -/
def replayGroup (st : ReplayState) (g : Nat × List WalRecord) : ReplayState :=
  g.2.foldl (fun acc r => replay_wal_record r acc) st

/-- The recovery loop of open_single_file (single_file.rs lines 336-361):
extract the committed transactions and replay each of their records into
the given starting state (a fresh delta plus header-derived allocators). -/
def replayCommitted (st0 : ReplayState) (wal : List WalRecord) : ReplayState :=
  (extractCommitted wal).foldl replayGroup st0

-- ===========================================================================
-- Database state model (src/core/single_file.rs and
-- src/core/single_file/transaction.rs, with the MVCC feature disabled:
-- self.mvcc = None, the default configuration; pager and mmap I/O, schema
-- name maps, vector stores and the auto-checkpoint trigger are outside this
-- state model because no claim below depends on them)
-- ===========================================================================

/-- Error kinds surfaced by the modelled operations (error.rs KiteError). -/
inductive KiteError where
  | readOnly
  | transactionInProgress
  | noTransaction
  | vectorDimensionMismatch (expected got : Nat)
  | invalidQuery
  | internal
deriving DecidableEq

/-- Commit durability mode (single_file/open.rs SyncMode). -/
inductive SyncMode where
  | full | normal | off
deriving DecidableEq

/-- Modelled from the spec: the circular WAL buffer
(crate::core::wal::buffer, not under src/).  Byte offsets are abstracted
to record counts; the buffer keeps the flushed and the pending
(written-but-not-flushed) records.  write_record appends to pending and
advances the head cursor; flush makes pending durable; discard_pending
drops it; reset returns the buffer to its initial state (head = tail = 0,
nothing buffered). -/
structure WalBuffer where
  headPos : Nat
  tailPos : Nat
  primaryHead : Nat
  secondaryHead : Nat
  activeRegion : Nat
  flushed : List WalRecord
  pending : List WalRecord

/-- The initial (empty) WAL buffer. -/
def WalBuffer.initial : WalBuffer :=
  ⟨0, 0, 0, 0, 0, [], []⟩

/-- Append a record (spec section 4.2, write_record). -/
def WalBuffer.write_record (w : WalBuffer) (r : WalRecord) : WalBuffer :=
  { w with pending := w.pending ++ [r], headPos := w.headPos + 1 }

/-- Make buffered records durable (spec section 4.2, flush). -/
def WalBuffer.flush (w : WalBuffer) : WalBuffer :=
  { w with flushed := w.flushed ++ w.pending, pending := [] }

/-- Drop the pending records (spec section 4.2, discard_pending; used by
rollback). -/
def WalBuffer.discard_pending (w : WalBuffer) : WalBuffer :=
  { w with pending := [] }

/-- Reset the buffer (spec sections 4.2 and 4.10: wal_head = wal_tail = 0
and the buffer is emptied). -/
def WalBuffer.reset (_w : WalBuffer) : WalBuffer :=
  WalBuffer.initial

/-- Database header page contents (types.rs DbHeaderV1; field list from
spec section 6). -/
structure DbHeader where
  page_size : Nat
  wal_start_page : Nat
  wal_page_count : Nat
  wal_head : Nat
  wal_tail : Nat
  wal_primary_head : Nat
  wal_secondary_head : Nat
  active_wal_region : Nat
  checkpoint_in_progress : Nat
  snapshot_start_page : Nat
  snapshot_page_count : Nat
  active_snapshot_gen : Nat
  db_size_pages : Nat
  max_node_id : Nat
  next_tx_id : Nat
  last_commit_ts : Nat
  change_counter : Nat

/-- Transaction slot contents (single_file/mod.rs SingleFileTxState):
txid, read-only flag, snapshot timestamp, and the pre-transaction delta
snapshot captured at begin for write transactions. -/
structure SingleFileTxState where
  txid : Nat
  read_only : Bool
  snapshot_ts : Nat
  delta_snapshot : Option DeltaState

/-- The modelled SingleFileDB state: the fields of the handle that the
claims below observe. -/
structure DbState where
  read_only : Bool
  header : DbHeader
  walBuffer : WalBuffer
  delta : DeltaState
  current_tx : Option SingleFileTxState
  next_node_id : Nat
  next_tx_id : Nat
  sync_mode : SyncMode

/-- pages_to_store (crate::core::pager, not under src/): the number of
pages needed to hold the given number of bytes, ceiling division. -/
def pages_to_store (bytes page_size : Nat) : Nat :=
  (bytes + page_size - 1) / page_size

/-- SingleFileDB::has_transaction (single_file.rs lines 871-874): true for
any occupant of the slot, read-only included. -/
def DbState.has_transaction (s : DbState) : Bool :=
  s.current_tx.isSome

/-- The post-begin state for a transaction that passed both reject checks
(transaction.rs lines 26-58, mvcc absent): allocate the txid, write a
Begin record for write transactions, snapshot the delta for write
transactions, fill the slot. -/
def DbState.beginBody (s : DbState) (read_only : Bool) : DbState :=
  { (if read_only then ({ s with next_tx_id := (s.next_tx_id + 1) % U64MOD } : DbState)
     else { s with
            next_tx_id := (s.next_tx_id + 1) % U64MOD
            walBuffer := s.walBuffer.write_record
              ⟨WalRecordType.begin, s.next_tx_id, WalPayload.control⟩ }) with
    current_tx := some ⟨s.next_tx_id, read_only, 0,
                        if read_only then none else some s.delta⟩ }

/-- SingleFileDB::begin (transaction.rs lines 16-60): reject a write
transaction on a read-only handle, reject when the slot is occupied,
otherwise run beginBody and return the new txid. -/
def DbState.begin (s : DbState) (read_only : Bool) : Except KiteError (Nat × DbState) :=
  if s.read_only && !read_only then .error .readOnly
  else if s.current_tx.isSome then .error .transactionInProgress
  else .ok (s.next_tx_id, s.beginBody read_only)

/-- The WAL side of a write-transaction commit (transaction.rs lines
302-313): append the Commit record, then flush when the sync mode is Full
or Normal. -/
def commitWal (mode : SyncMode) (w : WalBuffer) (txid : Nat) : WalBuffer :=
  let w1 := w.write_record ⟨WalRecordType.commit, txid, WalPayload.control⟩
  if mode = SyncMode.full ∨ mode = SyncMode.normal then w1.flush else w1

/-- The header update of a write-transaction commit (transaction.rs lines
315-335): copy the WAL cursors, max_node_id, next_tx_id, the commit
timestamp, and bump change_counter. -/
def DbState.commitHeaderUpdate (s : DbState) (now : Nat) : DbState :=
  { s with header := { s.header with
      wal_head := s.walBuffer.headPos
      wal_tail := s.walBuffer.tailPos
      wal_primary_head := s.walBuffer.primaryHead
      wal_secondary_head := s.walBuffer.secondaryHead
      active_wal_region := s.walBuffer.activeRegion
      max_node_id := s.next_node_id - 1
      next_tx_id := s.next_tx_id
      last_commit_ts := now
      change_counter := (s.header.change_counter + 1) % U64MOD } }

/-- SingleFileDB::commit (transaction.rs lines 63-372, mvcc absent): take
the transaction out of the slot; a read-only transaction returns Ok with
nothing else modified (lines 70-77); a write transaction appends the
Commit record, flushes per sync mode, and updates the header.  now is the
wall-clock millisecond timestamp the source reads for last_commit_ts.
The pending-vector drain and the auto-checkpoint trigger at the end of
commit act on fields outside this state model and are omitted. -/
def DbState.commit (s : DbState) (now : Nat) : Except KiteError DbState :=
  match s.current_tx with
  | none => .error .noTransaction
  | some tx =>
    if tx.read_only then .ok { s with current_tx := none }
    else
      .ok (DbState.commitHeaderUpdate
        { s with current_tx := none
                 walBuffer := commitWal s.sync_mode s.walBuffer tx.txid } now)

/-- SingleFileDB::rollback (transaction.rs lines 375-407, mvcc absent):
take the transaction; a read-only transaction returns Ok; a write
transaction appends a Rollback record, discards the pending WAL writes,
and restores the pre-transaction delta snapshot when one was captured. -/
def DbState.rollback (s : DbState) : Except KiteError DbState :=
  match s.current_tx with
  | none => .error .noTransaction
  | some tx =>
    if tx.read_only then .ok { s with current_tx := none }
    else
      .ok { s with
        current_tx := none
        walBuffer := (s.walBuffer.write_record
          ⟨WalRecordType.rollback, tx.txid, WalPayload.control⟩).discard_pending
        delta := match tx.delta_snapshot with
                 | some snap => snap
                 | none => s.delta }

/-- The header produced by a successful blocking checkpoint
(single_file.rs lines 1183-1203): new generation, snapshot placed
immediately after the WAL region, page count from the built buffer
length, db size, allocator ceilings, WAL cursors zeroed, change counter
bumped. -/
def checkpointHeader (h : DbHeader) (buildLen next_node_id next_tx_id : Nat) : DbHeader :=
  { h with
    active_snapshot_gen := (h.active_snapshot_gen + 1) % U64MOD
    snapshot_start_page := (h.wal_start_page + h.wal_page_count) % U64MOD
    snapshot_page_count := pages_to_store buildLen h.page_size
    db_size_pages := ((h.wal_start_page + h.wal_page_count) % U64MOD
                      + pages_to_store buildLen h.page_size) % U64MOD
    max_node_id := next_node_id - 1
    next_tx_id := next_tx_id
    wal_head := 0
    wal_tail := 0
    change_counter := (h.change_counter + 1) % U64MOD }

/-- SingleFileDB::checkpoint (single_file.rs lines 1143-1217): reject on a
read-only handle; reject when has_transaction (any transaction, read-only
included); otherwise build the new snapshot (buildLen is the byte length
of the buffer produced by build_snapshot_to_memory), write it after the
WAL region, update the header, reset the WAL buffer and clear the delta.
Page writes and the snapshot remap are I/O outside this state model; on
their failure the source returns early with the state fields here not yet
modified. -/
def DbState.checkpoint (s : DbState) (buildLen : Nat) : Except KiteError DbState :=
  if s.read_only then .error .readOnly
  else if s.has_transaction then .error .transactionInProgress
  else
    .ok { s with
      header := checkpointHeader s.header buildLen s.next_node_id s.next_tx_id
      walBuffer := s.walBuffer.reset
      delta := s.delta.clear }

-- ===========================================================================
-- Vector store dimension checks (src/core/single_file/vector.rs)
-- ===========================================================================

/-- Vector store configuration (crate::vector::types, not under src/,
modelled from the spec section 4.7: the per-store fixed dimension). -/
structure VectorStoreConfig where
  dimensions : Nat

/-- Modelled from the spec: the per-prop-key vector manifest
(crate::vector::types VectorManifest, not under src/): a config and the
committed NodeId to vector map (spec section 4.7). -/
structure VectorManifest where
  config : VectorStoreConfig
  vectors : Nat → Option (List Float)

/-- Modelled from the spec: validate_vector (crate::vector::store, not
under src/): all-zero vectors and NaN or infinite components are rejected
(spec section 4.7). -/
def validate_vector (v : List Float) : Bool :=
  !(v.all (fun x => x == 0.0)) && v.all (fun x => !x.isNaN && x.isFinite)

/-- The pending vector operations of the current transaction
(SingleFileTxState.pending.pending_vectors), as a list of
((node_id, prop_key_id), operation) entries; some v stages a set, none
stages a delete. -/
abbrev PendingVectors := List ((Nat × Nat) × Option (List Float))

/-- The first pending set operation for the given property key, as found
by the scan in set_node_vector (vector.rs lines 51-68): entries with a
different key or a pending delete are skipped, the scan stops at the
first pending set. -/
def findPendingForKey (pending : PendingVectors) (prop_key_id : Nat) :
    Option (List Float) :=
  match pending.find? (fun e => decide (e.1.2 = prop_key_id) && e.2.isSome) with
  | some e => e.2
  | none => none

/-- Insert-or-replace an entry in the pending vector list (HashMap insert
semantics). -/
def pendingInsert (pending : PendingVectors) (k : Nat × Nat)
    (v : Option (List Float)) : PendingVectors :=
  if pending.any (fun e => decide (e.1 = k)) then
    pending.map (fun e => if e.1 = k then (k, v) else e)
  else
    pending ++ [(k, v)]

/-- Validation, WAL append and staging of set_node_vector (vector.rs lines
70-90): validate the vector, append the SetNodeVector record, stage the
pending set. -/
def setNodeVectorStage (stores : Nat → Option VectorManifest)
    (pending : PendingVectors) (wal : List WalRecord)
    (txid node_id prop_key_id : Nat) (vector : List Float) :
    Except KiteError ((Nat → Option VectorManifest) × PendingVectors × List WalRecord) :=
  if validate_vector vector then
    .ok (stores,
         pendingInsert pending (node_id, prop_key_id) (some vector),
         wal ++ [⟨WalRecordType.setNodeVector, txid,
                  WalPayload.setNodeVector node_id prop_key_id vector⟩])
  else
    .error .invalidQuery

/-- The pending-vector dimension check of set_node_vector (vector.rs lines
51-68): the first pending set for the same property key must have the
same length as the new vector. -/
def setNodeVectorPendingCheck (stores : Nat → Option VectorManifest)
    (pending : PendingVectors) (wal : List WalRecord)
    (txid node_id prop_key_id : Nat) (vector : List Float) :
    Except KiteError ((Nat → Option VectorManifest) × PendingVectors × List WalRecord) :=
  match findPendingForKey pending prop_key_id with
  | some existing =>
    if existing.length ≠ vector.length then
      .error (.vectorDimensionMismatch existing.length vector.length)
    else
      setNodeVectorStage stores pending wal txid node_id prop_key_id vector
  | none =>
    setNodeVectorStage stores pending wal txid node_id prop_key_id vector

/-- SingleFileDB::set_node_vector (vector.rs lines 28-91), state threaded
explicitly: the transaction-active check is a precondition of the callers
below; the dimension of an existing store for the property key is checked
first; then, the pending vectors of the current transaction are checked
the same way; then the vector is validated; on success the SetNodeVector
WAL record is appended and the operation is staged in pending.  An error
return leaves every component unstaged. -/
def set_node_vector (stores : Nat → Option VectorManifest) (pending : PendingVectors)
    (wal : List WalRecord) (txid node_id prop_key_id : Nat) (vector : List Float) :
    Except KiteError ((Nat → Option VectorManifest) × PendingVectors × List WalRecord) :=
  match stores prop_key_id with
  | some store =>
    if store.config.dimensions ≠ vector.length then
      .error (.vectorDimensionMismatch store.config.dimensions vector.length)
    else
      setNodeVectorPendingCheck stores pending wal txid node_id prop_key_id vector
  | none =>
    setNodeVectorPendingCheck stores pending wal txid node_id prop_key_id vector

-- ===========================================================================
-- Read-path merge: get_out_edges (src/core/single_file.rs lines 1739-1785)
-- ===========================================================================

/-- Abstract interface of the memory-mapped snapshot reader, as used by
get_out_edges (crate::core::snapshot::reader, not under src/, modelled
from the spec section 4.4): physical-index resolution in both directions
and the outgoing edge list of a physical node as (dst_phys, etype)
pairs. -/
structure SnapModel where
  physOf : Nat → Option Nat
  idOf : Nat → Option Nat
  outEdges : Nat → List (Nat × Nat)

/-- The (etype, dst) ordering used by the sort_by in get_out_edges. -/
def edgeLe (a b : Nat × Nat) : Bool :=
  decide (a.1 < b.1) || (decide (a.1 = b.1) && decide (a.2 ≤ b.2))

/-- An (arbitrary but computable) linear order on edge patches, used only
to enumerate the out_add hash set; the enumeration order is irrelevant
because get_out_edges sorts its full result afterwards, as the source
does over the arbitrary HashSet iteration order. -/
instance : LinearOrder EdgePatch :=
  LinearOrder.lift' (fun p => Nat.pair p.etype p.other) (by
    intro a b h
    have h2 := Nat.pair_eq_pair.mp h
    cases a
    cases b
    simp only [EdgePatch.mk.injEq]
    exact ⟨h2.1, h2.2⟩)

/-- Enumerate a patch set (the HashSet iteration in the source; order
irrelevant, see above). -/
def patchList (s : Finset EdgePatch) : List EdgePatch :=
  s.sort (fun a b => a ≤ b)

/-- The snapshot contribution to get_out_edges: resolve the node to a
physical index, walk its outgoing edges, translate destinations back to
node ids (skipping unresolvable ones), and skip destinations deleted in
the delta and edges deleted in the delta. -/
def snapOutEdges (snap : Option SnapModel) (delta : DeltaState) (node_id : Nat) :
    List (Nat × Nat) :=
  match snap with
  | some sp =>
    match sp.physOf node_id with
    | some phys =>
      (sp.outEdges phys).filterMap (fun de =>
        match sp.idOf de.1 with
        | some dst =>
          if delta.is_node_deleted dst then none
          else if delta.is_edge_deleted node_id de.2 dst then none
          else some (de.2, dst)
        | none => none)
    | none => []
  | none => []

/-- SingleFileDB::get_out_edges (single_file.rs lines 1739-1785): empty for
a node deleted in the delta; otherwise the snapshot edges (with delta
deletions and deleted destinations filtered) followed by the delta-added
edges (with deleted destinations filtered), sorted by (etype, dst). -/
def get_out_edges (snap : Option SnapModel) (delta : DeltaState) (node_id : Nat) :
    List (Nat × Nat) :=
  if delta.is_node_deleted node_id then []
  else
    (snapOutEdges snap delta node_id ++
      ((patchList (delta.out_add node_id)).filter
        (fun p => !(delta.is_node_deleted p.other))).map
        (fun p => (p.etype, p.other))).mergeSort edgeLe

/-- Whether the snapshot itself holds the out-edge (node_id, e, d), through
the physical translation maps. -/
def snapHasOutEdge (snap : Option SnapModel) (node_id e d : Nat) : Prop :=
  ∃ sp phys, snap = some sp ∧ sp.physOf node_id = some phys ∧
    ∃ de, de ∈ sp.outEdges phys ∧ de.2 = e ∧ sp.idOf de.1 = some d

-- ===========================================================================
-- Concrete states used by counterexamples and witnesses
-- ===========================================================================

/-- A header as produced for a freshly created database with 4 KiB pages
and a 1 MiB WAL (256 pages). -/
def exampleHeader : DbHeader :=
  ⟨4096, 1, 256, 0, 0, 0, 0, 0, 0, 0, 0, 0, 257, 0, 1, 0, 0⟩

/-- A writable idle database state: no active transaction, empty delta,
empty WAL buffer. -/
def exampleIdleState : DbState :=
  ⟨false, exampleHeader, WalBuffer.initial, DeltaState.empty, none, 1, 1, SyncMode.full⟩

/-- The same database while a read-only transaction occupies the slot. -/
def exampleReadOnlyTxState : DbState :=
  { exampleIdleState with current_tx := some ⟨1, true, 0, none⟩ }

/-- A vector store table with a dimension-3 store sealed for property
key 7. -/
def exampleStores : Nat → Option VectorManifest :=
  fun k => if k = 7 then some ⟨⟨3⟩, fun _ => none⟩ else none

/-- Pending vectors of a transaction that staged a 1-dimensional vector
for node 1 under property key 7. -/
def examplePending : PendingVectors :=
  [((1, 7), some [0.5])]

-- ===========================================================================
-- Helper lemmas: the out_add / out_del footprint of the edge operations
-- ===========================================================================

theorem addEdgeIn_out_add (d : DeltaState) (s e t : Nat) :
    (d.addEdgeIn s e t).out_add = d.out_add := by
  simp only [DeltaState.addEdgeIn]
  split <;> rfl

theorem addEdgeIn_out_del (d : DeltaState) (s e t : Nat) :
    (d.addEdgeIn s e t).out_del = d.out_del := by
  simp only [DeltaState.addEdgeIn]
  split <;> rfl

theorem add_edge_out_add (d : DeltaState) (s e t : Nat) :
    (d.add_edge s e t).out_add = (d.addEdgeOut s e t).out_add := by
  simp only [DeltaState.add_edge]
  exact addEdgeIn_out_add _ s e t

theorem add_edge_out_del (d : DeltaState) (s e t : Nat) :
    (d.add_edge s e t).out_del = (d.addEdgeOut s e t).out_del := by
  simp only [DeltaState.add_edge]
  exact addEdgeIn_out_del _ s e t

theorem mem_addEdgeOut_out_add (d : DeltaState) (s e t m : Nat) (p : EdgePatch) :
    p ∈ (d.addEdgeOut s e t).out_add m ↔
      (p ∈ d.out_add m ∨ (m = s ∧ p = ⟨e, t⟩ ∧ (⟨e, t⟩ : EdgePatch) ∉ d.out_del s)) := by
  simp only [DeltaState.addEdgeOut]
  by_cases h1 : (⟨e, t⟩ : EdgePatch) ∈ d.out_del s
  · simp only [if_pos h1]
    constructor
    · exact fun h => Or.inl h
    · rintro (h | ⟨_, _, hno⟩)
      · exact h
      · exact absurd h1 hno
  · simp only [if_neg h1]
    by_cases hm : m = s
    · subst hm
      rw [if_pos rfl, Finset.mem_insert]
      constructor
      · rintro (h | h)
        · exact Or.inr ⟨rfl, h, h1⟩
        · exact Or.inl h
      · rintro (h | ⟨_, hp, _⟩)
        · exact Or.inr h
        · exact Or.inl hp
    · simp only [if_neg hm]
      constructor
      · exact fun h => Or.inl h
      · rintro (h | ⟨hms, _, _⟩)
        · exact h
        · exact absurd hms hm

theorem mem_addEdgeOut_out_del (d : DeltaState) (s e t m : Nat) (p : EdgePatch) :
    p ∈ (d.addEdgeOut s e t).out_del m ↔
      (p ∈ d.out_del m ∧ ¬(m = s ∧ p = ⟨e, t⟩)) := by
  simp only [DeltaState.addEdgeOut]
  by_cases h1 : (⟨e, t⟩ : EdgePatch) ∈ d.out_del s
  · simp only [if_pos h1]
    by_cases hm : m = s
    · subst hm
      rw [if_pos rfl, Finset.mem_erase]
      constructor
      · rintro ⟨hne, hmem⟩
        exact ⟨hmem, fun hc => hne hc.2⟩
      · rintro ⟨hmem, hnc⟩
        exact ⟨fun hpe => hnc ⟨rfl, hpe⟩, hmem⟩
    · simp only [if_neg hm]
      constructor
      · exact fun h => ⟨h, fun hc => hm hc.1⟩
      · exact fun h => h.1
  · simp only [if_neg h1]
    constructor
    · intro h
      refine ⟨h, ?_⟩
      rintro ⟨hms, hpe⟩
      subst hms; subst hpe
      exact h1 h
    · exact fun h => h.1

theorem mem_add_edge_out_add (d : DeltaState) (s e t m : Nat) (p : EdgePatch) :
    p ∈ (d.add_edge s e t).out_add m ↔
      (p ∈ d.out_add m ∨ (m = s ∧ p = ⟨e, t⟩ ∧ (⟨e, t⟩ : EdgePatch) ∉ d.out_del s)) := by
  rw [add_edge_out_add]
  exact mem_addEdgeOut_out_add d s e t m p

theorem mem_add_edge_out_del (d : DeltaState) (s e t m : Nat) (p : EdgePatch) :
    p ∈ (d.add_edge s e t).out_del m ↔
      (p ∈ d.out_del m ∧ ¬(m = s ∧ p = ⟨e, t⟩)) := by
  rw [add_edge_out_del]
  exact mem_addEdgeOut_out_del d s e t m p

theorem mem_delete_edge_out_add (d : DeltaState) (s e t m : Nat) (p : EdgePatch) :
    p ∈ (d.delete_edge s e t).out_add m ↔
      (p ∈ d.out_add m ∧ ¬(m = s ∧ p = ⟨e, t⟩)) := by
  simp only [DeltaState.delete_edge]
  by_cases h1 : (⟨e, t⟩ : EdgePatch) ∈ d.out_add s
  · simp only [if_pos h1]
    by_cases hm : m = s
    · subst hm
      rw [if_pos rfl, Finset.mem_erase]
      constructor
      · rintro ⟨hne, hmem⟩
        exact ⟨hmem, fun hc => hne hc.2⟩
      · rintro ⟨hmem, hnc⟩
        exact ⟨fun hpe => hnc ⟨rfl, hpe⟩, hmem⟩
    · simp only [if_neg hm]
      constructor
      · exact fun h => ⟨h, fun hc => hm hc.1⟩
      · exact fun h => h.1
  · simp only [if_neg h1]
    constructor
    · intro h
      refine ⟨h, ?_⟩
      rintro ⟨hms, hpe⟩
      subst hms; subst hpe
      exact h1 h
    · exact fun h => h.1

theorem mem_delete_edge_out_del (d : DeltaState) (s e t m : Nat) (p : EdgePatch) :
    p ∈ (d.delete_edge s e t).out_del m ↔
      (p ∈ d.out_del m ∨ (m = s ∧ p = ⟨e, t⟩ ∧ (⟨e, t⟩ : EdgePatch) ∉ d.out_add s)) := by
  simp only [DeltaState.delete_edge]
  by_cases h1 : (⟨e, t⟩ : EdgePatch) ∈ d.out_add s
  · simp only [if_pos h1]
    constructor
    · exact fun h => Or.inl h
    · rintro (h | ⟨_, _, hno⟩)
      · exact h
      · exact absurd h1 hno
  · simp only [if_neg h1]
    by_cases hm : m = s
    · subst hm
      rw [if_pos rfl, Finset.mem_insert]
      constructor
      · rintro (h | h)
        · exact Or.inr ⟨rfl, h, h1⟩
        · exact Or.inl h
      · rintro (h | ⟨_, hp, _⟩)
        · exact Or.inr h
        · exact Or.inl hp
    · simp only [if_neg hm]
      constructor
      · exact fun h => Or.inl h
      · rintro (h | ⟨hms, _, _⟩)
        · exact h
        · exact absurd hms hm

-- ===========================================================================
-- Helper lemmas: the cancellation invariant is preserved by every edge op
-- ===========================================================================

theorem edgeExclusive_empty : edgeExclusive DeltaState.empty := by
  intro s p hp
  exact absurd hp.1 (Finset.not_mem_empty p)

theorem edgeExclusive_add_edge (d : DeltaState) (h : edgeExclusive d) (s e t : Nat) :
    edgeExclusive (d.add_edge s e t) := by
  intro m p hp
  obtain ⟨ha, hd⟩ := hp
  rw [mem_add_edge_out_add] at ha
  rw [mem_add_edge_out_del] at hd
  rcases ha with ha | ⟨hm, hp2, _⟩
  · exact h m p ⟨ha, hd.1⟩
  · exact hd.2 ⟨hm, hp2⟩

theorem edgeExclusive_delete_edge (d : DeltaState) (h : edgeExclusive d) (s e t : Nat) :
    edgeExclusive (d.delete_edge s e t) := by
  intro m p hp
  obtain ⟨ha, hd⟩ := hp
  rw [mem_delete_edge_out_add] at ha
  rw [mem_delete_edge_out_del] at hd
  rcases hd with hd | ⟨hm, hp2, _⟩
  · exact h m p ⟨ha.1, hd⟩
  · exact ha.2 ⟨hm, hp2⟩

theorem edgeExclusive_applyEdgeOps (ops : List EdgeOp) (d : DeltaState)
    (h : edgeExclusive d) : edgeExclusive (applyEdgeOps d ops) := by
  induction ops generalizing d with
  | nil => exact h
  | cons op rest ih =>
    have hstep : edgeExclusive (applyEdgeOp d op) := by
      cases op with
      | add s e t => exact edgeExclusive_add_edge d h s e t
      | del s e t => exact edgeExclusive_delete_edge d h s e t
    simpa [applyEdgeOps, List.foldl] using ih (applyEdgeOp d op) hstep

/-- C4: for every sequence of add_edge/delete_edge operations on a Delta
overlay and every triple (src, etype, dst), is_edge_added and
is_edge_deleted are never both true: out_add and out_del are mutually
exclusive for the same triple, because an add on a pending delete cancels
the delete and a delete on a pending add cancels the add. -/
theorem C4_edge_add_delete_mutually_exclusive (ops : List EdgeOp) (s e t : Nat) :
    ((applyEdgeOps DeltaState.empty ops).is_edge_added s e t &&
     (applyEdgeOps DeltaState.empty ops).is_edge_deleted s e t) = false := by
  have h2 := edgeExclusive_applyEdgeOps ops DeltaState.empty edgeExclusive_empty s ⟨e, t⟩
  simp only [DeltaState.is_edge_added, DeltaState.is_edge_deleted]
  by_cases ha : (⟨e, t⟩ : EdgePatch) ∈ (applyEdgeOps DeltaState.empty ops).out_add s
  · by_cases hd : (⟨e, t⟩ : EdgePatch) ∈ (applyEdgeOps DeltaState.empty ops).out_del s
    · exact absurd ⟨ha, hd⟩ h2
    · simp [ha, hd]
  · simp [ha]

/-- C5 counterexample: starting from the empty overlay, create_node 1,
an intervening add_edge 1 7 2 and then delete_node 1 (with no commit)
leaves incoming_edge_sources still recording node 1 as a source for
node 2, while for a no-op overlay that set is empty: the post-state is
not untouched with respect to n = 1 in the incoming_edge_sources map, so
the claim as stated fails at this input. -/
theorem C5_counterexample_incoming_edge_sources :
    1 ∈ ((((DeltaState.empty.create_node 1 none).add_edge 1 7 2).delete_node
          1).incoming_edge_sources 2) ∧
    DeltaState.empty.incoming_edge_sources 2 = ∅ := by
  constructor
  · decide
  · rfl

/-- C5 (amended): create_node n immediately followed by delete_node n,
with n and its key fresh in the overlay (no created-node entry, no edge
patches touching n, key unbound), restores the overlay exactly; with
intervening edge operations the cleanup misses incoming_edge_sources
entries that record n as a source (and out_del/in_del entries from
intervening delete_edge calls). -/
theorem C5_create_then_delete_restores (d : DeltaState) (n : Nat) (key : Option String)
    (h1 : d.created_nodes n = none)
    (h2 : d.out_add n = ∅)
    (h3 : d.in_add n = ∅)
    (h4 : d.incoming_edge_sources n = ∅)
    (h5 : ∀ m p, p ∈ d.in_add m → p.other ≠ n)
    (h6 : ∀ k, key = some k → d.key_index k = none) :
    (d.create_node n key).delete_node n = d := by
  have hc : (d.create_node n key).created_nodes n = some ⟨key, none, none, none⟩ := by
    simp [DeltaState.create_node]
  unfold DeltaState.delete_node
  rw [hc]
  cases key with
  | none =>
    simp only [DeltaState.create_node]
    ext1
    · funext m
      dsimp only
      by_cases hm : m = n
      · subst hm
        rw [if_pos rfl, h1]
      · rw [if_neg hm, if_neg hm]
    · rfl
    · rfl
    · funext m
      dsimp only
      by_cases hm : m = n
      · subst hm
        simp [h4, h2]
      · simp [h4, hm]
    · rfl
    · funext m
      dsimp only
      by_cases hm : m = n
      · subst hm
        rw [if_pos rfl, h3]
      · rw [if_neg hm]
        exact Finset.filter_true_of_mem (fun p hp => h5 m p hp)
    · rfl
    · rfl
    · rfl
    · rfl
    · rfl
    · rfl
    · rfl
    · funext m
      dsimp only
      by_cases hm : m = n
      · subst hm
        rw [if_pos rfl, h4]
      · rw [if_neg hm]
  | some k =>
    simp only [DeltaState.create_node]
    ext1
    · funext m
      dsimp only
      by_cases hm : m = n
      · subst hm
        rw [if_pos rfl, h1]
      · rw [if_neg hm, if_neg hm]
    · rfl
    · rfl
    · funext m
      dsimp only
      by_cases hm : m = n
      · subst hm
        simp [h4, h2]
      · simp [h4, hm]
    · rfl
    · funext m
      dsimp only
      by_cases hm : m = n
      · subst hm
        rw [if_pos rfl, h3]
      · rw [if_neg hm]
        exact Finset.filter_true_of_mem (fun p hp => h5 m p hp)
    · rfl
    · rfl
    · rfl
    · rfl
    · rfl
    · funext s
      dsimp only
      by_cases hs : s = k
      · rw [if_pos hs, hs, h6 k rfl]
      · rw [if_neg hs, if_neg hs]
    · rfl
    · funext m
      dsimp only
      by_cases hm : m = n
      · subst hm
        rw [if_pos rfl, h4]
      · rw [if_neg hm]

/-- Witness for the amended C5 theorem at a concrete input: the empty
overlay, node 1, key "a". -/
theorem C5_create_then_delete_restores_witness :
    DeltaState.empty.created_nodes 1 = none ∧
    DeltaState.empty.out_add 1 = ∅ ∧
    DeltaState.empty.in_add 1 = ∅ ∧
    DeltaState.empty.incoming_edge_sources 1 = ∅ ∧
    (∀ m p, p ∈ DeltaState.empty.in_add m → p.other ≠ 1) ∧
    (∀ k, (some "a" : Option String) = some k → DeltaState.empty.key_index k = none) ∧
    (DeltaState.empty.create_node 1 (some "a")).delete_node 1 = DeltaState.empty :=
  ⟨rfl, rfl, rfl, rfl,
   fun _ p hp => absurd hp (Finset.not_mem_empty p),
   fun _ _ => rfl,
   C5_create_then_delete_restores DeltaState.empty 1 (some "a") rfl rfl rfl rfl
     (fun _ p hp => absurd hp (Finset.not_mem_empty p)) (fun _ _ => rfl)⟩

-- ===========================================================================
-- Helper lemmas for the WAL recovery claim: the committed-transaction
-- extraction ignores records of uncommitted transactions
-- ===========================================================================

theorem mem_firstDedup (x : Nat) (l : List Nat) : x ∈ firstDedup l ↔ x ∈ l := by
  induction l with
  | nil => simp [firstDedup]
  | cons t rest ih =>
    by_cases hx : x = t
    · subst hx
      simp [firstDedup]
    · simp [firstDedup, List.mem_filter, hx, ih]

theorem firstDedup_filter (p : Nat → Bool) (l : List Nat) :
    firstDedup (l.filter p) = (firstDedup l).filter p := by
  induction l with
  | nil => rfl
  | cons t rest ih =>
    by_cases hp : p t = true
    · rw [List.filter_cons_of_pos hp]
      rw [show firstDedup (t :: List.filter p rest)
            = t :: (firstDedup (List.filter p rest)).filter (fun x => decide (x ≠ t)) from rfl]
      rw [show firstDedup (t :: rest)
            = t :: (firstDedup rest).filter (fun x => decide (x ≠ t)) from rfl]
      rw [List.filter_cons_of_pos hp, ih]
      rw [List.filter_filter, List.filter_filter]
      congr 1
      apply List.filter_congr
      intro x _
      exact Bool.and_comm _ _
    · rw [List.filter_cons_of_neg hp]
      rw [ih]
      rw [show firstDedup (t :: rest)
            = t :: (firstDedup rest).filter (fun x => decide (x ≠ t)) from rfl]
      rw [List.filter_cons_of_neg hp]
      rw [List.filter_filter]
      symm
      apply List.filter_congr
      intro x _
      by_cases hpx : p x = true
      · have hxt : decide (x ≠ t) = true := by
          by_cases hxeq : x = t
          · subst hxeq
            exact absurd hpx hp
          · simp [hxeq]
        rw [hpx, hxt]
        rfl
      · simp at hpx
        rw [hpx]
        rfl

theorem committedTx_filter (wal : List WalRecord) (t : Nat) :
    committedTx (wal.filter (fun r => committedTx wal r.txid)) t = committedTx wal t := by
  by_cases h : committedTx wal t = true
  · rw [h]
    rw [committedTx, List.any_eq_true] at h ⊢
    obtain ⟨r, hr, hp⟩ := h
    refine ⟨r, ?_, hp⟩
    rw [List.mem_filter]
    refine ⟨hr, ?_⟩
    have htx : r.txid = t := by
      have := (Bool.and_eq_true _ _).mp hp
      exact of_decide_eq_true this.2
    rw [htx]
    rw [committedTx, List.any_eq_true]
    exact ⟨r, hr, hp⟩
  · rw [Bool.not_eq_true] at h
    rw [h]
    rw [Bool.eq_false_iff]
    intro hc
    rw [committedTx, List.any_eq_true] at hc
    obtain ⟨r, hr, hp⟩ := hc
    have hr2 : r ∈ wal := (List.mem_filter.mp hr).1
    have : committedTx wal t = true := by
      rw [committedTx, List.any_eq_true]
      exact ⟨r, hr2, hp⟩
    rw [h] at this
    exact Bool.false_ne_true this

theorem extractCommitted_filter (wal : List WalRecord) :
    extractCommitted (wal.filter (fun r => committedTx wal r.txid)) =
      extractCommitted wal := by
  rw [extractCommitted, extractCommitted]
  have hmap : (wal.filter (fun r => committedTx wal r.txid)).map (fun r => r.txid)
      = (wal.map (fun r => r.txid)).filter (fun t => committedTx wal t) := by
    rw [List.map_filter]
    rfl
  rw [hmap, firstDedup_filter]
  have hfc : ((firstDedup (wal.map (fun r => r.txid))).filter
        (fun t => committedTx wal t)).filter
        (fun t => committedTx (wal.filter (fun r => committedTx wal r.txid)) t)
      = (firstDedup (wal.map (fun r => r.txid))).filter (fun t => committedTx wal t) := by
    rw [List.filter_eq_self]
    intro t ht
    rw [committedTx_filter]
    exact (List.mem_filter.mp ht).2
  rw [hfc]
  apply List.map_congr_left
  intro t ht
  have hpt : committedTx wal t = true := (List.mem_filter.mp ht).2
  have hgroups : (wal.filter (fun r => committedTx wal r.txid)).filter
        (fun r => decide (r.txid = t))
      = wal.filter (fun r => decide (r.txid = t)) := by
    rw [List.filter_filter]
    apply List.filter_congr
    intro r _
    by_cases hq : r.txid = t
    · have h1 : decide (r.txid = t) = true := decide_eq_true hq
      have h2 : committedTx wal r.txid = true := by
        rw [hq]
        exact hpt
      rw [h1, h2]
      rfl
    · have h1 : decide (r.txid = t) = false := decide_eq_false hq
      rw [h1]
      exact Bool.false_and _
  rw [hgroups]

/-- C1: WAL recovery replays only records of transactions that have a
Commit record with matching txid; the records of transactions without a
Commit are discarded and have no effect on the replayed delta, the
allocator ceilings or the schema maps: replaying any WAL produces exactly
the state produced after removing every record of an uncommitted
transaction, and every record handed to replay belongs to a committed
transaction. -/
theorem C1_wal_replay_only_committed (st0 : ReplayState) (wal : List WalRecord) :
    replayCommitted st0 wal =
      replayCommitted st0 (wal.filter (fun r => committedTx wal r.txid)) ∧
    (extractCommitted wal).all
      (fun g => g.2.all (fun r => committedTx wal r.txid)) = true := by
  constructor
  · rw [replayCommitted, replayCommitted, extractCommitted_filter]
  · rw [List.all_eq_true]
    intro g hg
    rw [List.all_eq_true]
    intro r hr
    rw [extractCommitted, List.mem_map] at hg
    obtain ⟨t, ht, hgt⟩ := hg
    have hpt : committedTx wal t = true := (List.mem_filter.mp ht).2
    rw [← hgt] at hr
    have hrt : decide (r.txid = t) = true := (List.mem_filter.mp hr).2
    have : r.txid = t := of_decide_eq_true hrt
    rw [this]
    exact hpt

-- ===========================================================================
-- Transaction-slot claims (begin / commit / rollback)
-- ===========================================================================

/-- C2: after rollback() of a write transaction returns Ok, the delta
overlay equals its state at the corresponding begin() (the pre-transaction
delta snapshot captured by begin is restored), whatever the transaction
body did to the delta and the WAL buffer in between; current_tx is None
and key lookups in the delta see exactly the pre-begin bindings. -/
theorem C2_rollback_restores_delta (s : DbState) (txid : Nat) (s1 : DbState)
    (h : s.begin false = .ok (txid, s1)) (d2 : DeltaState) (w2 : WalBuffer) :
    ∃ s3, DbState.rollback { s1 with delta := d2, walBuffer := w2 } = .ok s3 ∧
      s3.delta = s.delta ∧ s3.current_tx = none ∧
      (∀ k, s3.delta.get_node_by_key k = s.delta.get_node_by_key k) := by
  rw [DbState.begin] at h
  by_cases hro : (s.read_only && !false) = true
  · rw [if_pos hro] at h
    exact absurd h (by simp)
  · rw [if_neg hro] at h
    by_cases htx : s.current_tx.isSome = true
    · rw [if_pos htx] at h
      exact absurd h (by simp)
    · rw [if_neg htx] at h
      cases h
      exact ⟨_, rfl, rfl, rfl, fun k => rfl⟩

/-- Witness for C2 at a concrete input: begin a write transaction on the
idle example state, mutate the delta arbitrarily (here: create node 2
under key "c"), roll back, and recover the pre-begin delta. -/
theorem C2_rollback_restores_delta_witness :
    exampleIdleState.begin false = .ok (1, exampleIdleState.beginBody false) ∧
    ∃ s3, DbState.rollback { exampleIdleState.beginBody false with
        delta := DeltaState.empty.create_node 2 (some "c")
        walBuffer := WalBuffer.initial } = .ok s3 ∧
      s3.delta = exampleIdleState.delta ∧ s3.current_tx = none ∧
      (∀ k, s3.delta.get_node_by_key k = exampleIdleState.delta.get_node_by_key k) :=
  ⟨rfl, C2_rollback_restores_delta exampleIdleState 1 (exampleIdleState.beginBody false) rfl
    (DeltaState.empty.create_node 2 (some "c")) WalBuffer.initial⟩

/-- C7 counterexample: while a read-only transaction occupies the slot,
begin(read_only = true) returns TransactionInProgress rather than
succeeding: read-only transactions do not coexist on one handle. -/
theorem C7_counterexample_read_only_begin_rejected :
    exampleReadOnlyTxState.current_tx = some ⟨1, true, 0, none⟩ ∧
    exampleReadOnlyTxState.begin true = .error .transactionInProgress :=
  ⟨rfl, rfl⟩

/-- C7 (amended): begin returns TransactionInProgress whenever any
transaction, read-only or write, already holds current_tx (given the
handle-level read-only check does not fire first). -/
theorem C7_begin_rejected_when_slot_occupied (s : DbState) (ro : Bool)
    (tx : SingleFileTxState) (h1 : s.current_tx = some tx)
    (h2 : s.read_only = true → ro = true) :
    s.begin ro = .error .transactionInProgress := by
  rw [DbState.begin]
  have hcond : (s.read_only && !ro) = false := by
    cases hro : s.read_only
    · rfl
    · rw [h2 hro]
      rfl
  rw [hcond]
  simp [h1]

/-- Witness for the amended C7 theorem, applying it at the read-only-
transaction example state with a write begin attempt. -/
theorem C7_begin_rejected_when_slot_occupied_witness :
    exampleReadOnlyTxState.current_tx = some ⟨1, true, 0, none⟩ ∧
    exampleReadOnlyTxState.begin false = .error .transactionInProgress :=
  ⟨rfl, C7_begin_rejected_when_slot_occupied exampleReadOnlyTxState false ⟨1, true, 0, none⟩
    rfl (fun h => by cases h)⟩

/-- C10: commit() of a read-only transaction returns Ok and leaves the
delta overlay, the WAL buffer (so no Commit record and no flush) and the
header (so no rewrite and no change_counter increment) unchanged; only
the transaction slot is emptied. -/
theorem C10_commit_read_only_noop (s : DbState) (tx : SingleFileTxState) (now : Nat)
    (h1 : s.current_tx = some tx) (h2 : tx.read_only = true) :
    ∃ s2, s.commit now = .ok s2 ∧
      s2.delta = s.delta ∧ s2.walBuffer = s.walBuffer ∧ s2.header = s.header ∧
      s2.header.change_counter = s.header.change_counter ∧ s2.current_tx = none := by
  refine ⟨{ s with current_tx := none }, ?_, rfl, rfl, rfl, rfl, rfl⟩
  rw [DbState.commit, h1]
  simp [h2]

/-- Witness for C10 at the read-only-transaction example state. -/
theorem C10_commit_read_only_noop_witness :
    exampleReadOnlyTxState.current_tx = some ⟨1, true, 0, none⟩ ∧
    (⟨1, true, 0, none⟩ : SingleFileTxState).read_only = true ∧
    (∃ s2, exampleReadOnlyTxState.commit 42 = .ok s2 ∧
      s2.delta = exampleReadOnlyTxState.delta ∧
      s2.walBuffer = exampleReadOnlyTxState.walBuffer ∧
      s2.header = exampleReadOnlyTxState.header ∧
      s2.header.change_counter = exampleReadOnlyTxState.header.change_counter ∧
      s2.current_tx = none) :=
  ⟨rfl, rfl, C10_commit_read_only_noop exampleReadOnlyTxState ⟨1, true, 0, none⟩ 42 rfl rfl⟩

-- ===========================================================================
-- Checkpoint claims
-- ===========================================================================

/-- C3: after a successful blocking checkpoint, the header generation is
the previous one plus one, wal_head and wal_tail are zero, the WAL buffer
is reset to its initial state, snapshot_start_page equals
wal_start_page + wal_page_count, and the delta overlay is cleared (every
map empty).  The two side conditions state that the u64 counters do not
wrap, which holds for every reachable header. -/
theorem C3_checkpoint_postconditions (s s2 : DbState) (len : Nat)
    (hgen : s.header.active_snapshot_gen + 1 < U64MOD)
    (hpage : s.header.wal_start_page + s.header.wal_page_count < U64MOD)
    (h : s.checkpoint len = .ok s2) :
    s2.header.active_snapshot_gen = s.header.active_snapshot_gen + 1 ∧
    s2.header.wal_head = 0 ∧ s2.header.wal_tail = 0 ∧
    s2.walBuffer = WalBuffer.initial ∧
    s2.header.snapshot_start_page = s.header.wal_start_page + s.header.wal_page_count ∧
    s2.delta = DeltaState.empty := by
  rw [DbState.checkpoint] at h
  by_cases hro : s.read_only = true
  · rw [if_pos hro] at h
    exact absurd h (by simp)
  · rw [if_neg hro] at h
    by_cases htx : s.has_transaction = true
    · rw [if_pos htx] at h
      exact absurd h (by simp)
    · rw [if_neg htx] at h
      cases h
      refine ⟨?_, rfl, rfl, rfl, ?_, rfl⟩
      · exact Nat.mod_eq_of_lt hgen
      · exact Nat.mod_eq_of_lt hpage

/-- Witness for C3 at a concrete input: checkpoint the idle example state
with a 5000-byte snapshot build. -/
theorem C3_checkpoint_postconditions_witness :
    exampleIdleState.header.active_snapshot_gen + 1 < U64MOD ∧
    exampleIdleState.header.wal_start_page + exampleIdleState.header.wal_page_count < U64MOD ∧
    (∃ s2, exampleIdleState.checkpoint 5000 = .ok s2 ∧
      s2.header.active_snapshot_gen = exampleIdleState.header.active_snapshot_gen + 1 ∧
      s2.header.wal_head = 0 ∧ s2.header.wal_tail = 0 ∧
      s2.walBuffer = WalBuffer.initial ∧
      s2.header.snapshot_start_page =
        exampleIdleState.header.wal_start_page + exampleIdleState.header.wal_page_count ∧
      s2.delta = DeltaState.empty) := by
  refine ⟨by decide, by decide, ⟨_, rfl, ?_⟩⟩
  exact C3_checkpoint_postconditions exampleIdleState _ 5000 (by decide) (by decide) rfl

/-- C6 counterexample: an active read-only transaction does cause the
checkpoint to be rejected: with a read-only transaction in the slot,
checkpoint() returns TransactionInProgress instead of proceeding. -/
theorem C6_counterexample_read_only_tx_blocks_checkpoint :
    exampleReadOnlyTxState.read_only = false ∧
    exampleReadOnlyTxState.current_tx = some ⟨1, true, 0, none⟩ ∧
    (⟨1, true, 0, none⟩ : SingleFileTxState).read_only = true ∧
    exampleReadOnlyTxState.checkpoint 5000 = .error .transactionInProgress :=
  ⟨rfl, rfl, rfl, rfl⟩

/-- C6 (amended): checkpoint() is rejected when the database is opened
read-only or when ANY transaction, read-only included, is in progress,
and proceeds otherwise. -/
theorem C6_checkpoint_reject_conditions (s : DbState) (len : Nat) :
    (s.read_only = true → s.checkpoint len = .error .readOnly) ∧
    (s.read_only = false → ∀ tx, s.current_tx = some tx →
      s.checkpoint len = .error .transactionInProgress) ∧
    (s.read_only = false → s.current_tx = none →
      ∃ s2, s.checkpoint len = .ok s2) := by
  refine ⟨?_, ?_, ?_⟩
  · intro h
    rw [DbState.checkpoint, if_pos h]
  · intro hro tx htx
    rw [DbState.checkpoint, if_neg (by rw [hro]; exact Bool.false_ne_true)]
    rw [if_pos (by rw [DbState.has_transaction, htx]; rfl)]
  · intro hro htx
    rw [DbState.checkpoint, if_neg (by rw [hro]; exact Bool.false_ne_true)]
    rw [if_neg (by rw [DbState.has_transaction, htx]; exact Bool.false_ne_true)]
    exact ⟨_, rfl⟩

/-- Witness for the amended C6 theorem: the rejection at the read-only-
transaction state and the success at the idle state, both by applying the
theorem. -/
theorem C6_checkpoint_reject_conditions_witness :
    exampleReadOnlyTxState.checkpoint 7 = .error .transactionInProgress ∧
    (∃ s2, exampleIdleState.checkpoint 7 = .ok s2) :=
  ⟨(C6_checkpoint_reject_conditions exampleReadOnlyTxState 7).2.1 rfl ⟨1, true, 0, none⟩ rfl,
   (C6_checkpoint_reject_conditions exampleIdleState 7).2.2 rfl rfl⟩

-- ===========================================================================
-- Vector dimension claim
-- ===========================================================================

/-- C8: when the vector store for a property key is already sealed at
dimension D, set_node_vector with a vector of a different length L fails
with VectorDimensionMismatch (expected D, got L) and stages nothing (an
error return carries no updated state); when no store exists yet, the
first pending set for the same property key in the current transaction is
checked against the new length the same way. -/
theorem C8_set_node_vector_dimension_mismatch
    (stores : Nat → Option VectorManifest) (pending : PendingVectors)
    (wal : List WalRecord) (txid n k : Nat) (v : List Float) :
    (∀ store, stores k = some store → store.config.dimensions ≠ v.length →
      set_node_vector stores pending wal txid n k v =
        .error (.vectorDimensionMismatch store.config.dimensions v.length)) ∧
    (stores k = none → ∀ w, findPendingForKey pending k = some w →
      w.length ≠ v.length →
      set_node_vector stores pending wal txid n k v =
        .error (.vectorDimensionMismatch w.length v.length)) := by
  constructor
  · intro store hs hne
    simp only [set_node_vector, hs]
    rw [if_pos hne]
  · intro hs w hw hne
    simp only [set_node_vector, hs, setNodeVectorPendingCheck, hw]
    rw [if_pos hne]

/-- Witness for C8: the sealed dimension-3 store rejects a length-2
vector, and with no store the staged length-1 pending vector rejects a
length-2 vector, both with the lengths in the error payload. -/
theorem C8_set_node_vector_dimension_mismatch_witness :
    exampleStores 7 = some ⟨⟨3⟩, fun _ => none⟩ ∧
    findPendingForKey examplePending 7 = some [0.5] ∧
    (set_node_vector exampleStores [] [] 1 1 7 [1.5, 2.5] =
      .error (.vectorDimensionMismatch 3 2)) ∧
    (set_node_vector (fun _ => none) examplePending [] 1 1 7 [0.5, 0.5] =
      .error (.vectorDimensionMismatch 1 2)) :=
  ⟨rfl, rfl,
   (C8_set_node_vector_dimension_mismatch exampleStores [] [] 1 1 7 [1.5, 2.5]).1
     ⟨⟨3⟩, fun _ => none⟩ rfl (by decide),
   (C8_set_node_vector_dimension_mismatch (fun _ => none) examplePending [] 1 1 7
     [0.5, 0.5]).2 rfl [0.5] rfl (by decide)⟩

-- ===========================================================================
-- Read-path merge claim (get_out_edges)
-- ===========================================================================

theorem edgeLe_trans (a b c : Nat × Nat) (h1 : edgeLe a b = true)
    (h2 : edgeLe b c = true) : edgeLe a c = true := by
  simp only [edgeLe, Bool.or_eq_true, Bool.and_eq_true, decide_eq_true_eq] at h1 h2 ⊢
  omega

theorem edgeLe_total (a b : Nat × Nat) : (edgeLe a b || edgeLe b a) = true := by
  simp only [edgeLe, Bool.or_eq_true, Bool.and_eq_true, decide_eq_true_eq]
  omega

theorem mem_snapOutEdges (snap : Option SnapModel) (delta : DeltaState) (n e d : Nat) :
    (e, d) ∈ snapOutEdges snap delta n ↔
      (snapHasOutEdge snap n e d ∧ delta.is_node_deleted d = false ∧
       delta.is_edge_deleted n e d = false) := by
  cases snap with
  | none =>
    simp [snapOutEdges, snapHasOutEdge]
  | some sp =>
    cases hph : sp.physOf n with
    | none =>
      simp [snapOutEdges, hph, snapHasOutEdge]
    | some phys =>
      simp only [snapOutEdges, hph]
      rw [List.mem_filterMap]
      constructor
      · rintro ⟨de, hde, hf⟩
        cases hid : sp.idOf de.1 with
        | none =>
          rw [hid] at hf
          exact absurd hf (by simp)
        | some dst =>
          rw [hid] at hf
          dsimp only at hf
          by_cases hdel : delta.is_node_deleted dst = true
          · rw [if_pos hdel] at hf
            exact absurd hf (by simp)
          · rw [if_neg hdel] at hf
            by_cases hed : delta.is_edge_deleted n de.2 dst = true
            · rw [if_pos hed] at hf
              exact absurd hf (by simp)
            · rw [if_neg hed] at hf
              injection hf with hpair
              have he : de.2 = e := congrArg Prod.fst hpair
              have hd : dst = d := congrArg Prod.snd hpair
              subst hd
              refine ⟨⟨sp, phys, rfl, hph, de, hde, he, hid⟩, ?_, ?_⟩
              · cases hv : delta.is_node_deleted dst
                · rfl
                · exact absurd hv hdel
              · rw [← he]
                cases hv : delta.is_edge_deleted n de.2 dst
                · rfl
                · exact absurd hv hed
      · rintro ⟨⟨sp2, phys2, hsp, hph2, de, hde, he, hid⟩, hdelF, hedF⟩
        injection hsp with hsp2
        subst hsp2
        rw [hph] at hph2
        injection hph2 with hph3
        subst hph3
        refine ⟨de, hde, ?_⟩
        rw [hid]
        dsimp only
        rw [if_neg (by rw [hdelF]; exact Bool.false_ne_true)]
        rw [if_neg (by rw [he, hedF]; exact Bool.false_ne_true)]
        rw [he]

theorem mem_deltaOutAdd (delta : DeltaState) (n e d : Nat) :
    (e, d) ∈ ((patchList (delta.out_add n)).filter
        (fun p => !(delta.is_node_deleted p.other))).map (fun p => (p.etype, p.other)) ↔
      (delta.is_edge_added n e d = true ∧ delta.is_node_deleted d = false) := by
  rw [List.mem_map]
  constructor
  · rintro ⟨p, hp, hpe⟩
    rw [List.mem_filter] at hp
    obtain ⟨hp1, hp2⟩ := hp
    rw [patchList, Finset.mem_sort] at hp1
    have he : p.etype = e := congrArg Prod.fst hpe
    have hd : p.other = d := congrArg Prod.snd hpe
    have hpp : p = ⟨e, d⟩ := by
      cases p
      cases he
      cases hd
      rfl
    subst hpp
    refine ⟨decide_eq_true hp1, ?_⟩
    cases hv : delta.is_node_deleted d
    · rfl
    · rw [hv] at hp2
      exact absurd hp2 (by decide)
  · rintro ⟨hadd, hdel⟩
    refine ⟨⟨e, d⟩, ?_, rfl⟩
    rw [List.mem_filter]
    refine ⟨?_, ?_⟩
    · rw [patchList, Finset.mem_sort]
      exact of_decide_eq_true hadd
    · rw [hdel]
      rfl

/-- C9: get_out_edges returns the merged snapshot-plus-delta outgoing
edges of a node, sorted by (etype, dst); edges deleted in the delta and
edges whose destination is deleted in the delta are excluded, and a node
deleted in the delta has no outgoing edges.  The hypothesis is invariant
I2 for the source node (out_add and out_del disjoint), which holds for
every reachable delta. -/
theorem C9_get_out_edges_spec (snap : Option SnapModel) (delta : DeltaState) (n : Nat)
    (hI2 : ∀ e d, ¬(delta.is_edge_added n e d = true ∧
                    delta.is_edge_deleted n e d = true)) :
    (delta.is_node_deleted n = true → get_out_edges snap delta n = []) ∧
    List.Pairwise (fun a b => edgeLe a b = true) (get_out_edges snap delta n) ∧
    (∀ e d, (e, d) ∈ get_out_edges snap delta n ↔
      (delta.is_node_deleted n = false ∧ delta.is_node_deleted d = false ∧
       delta.is_edge_deleted n e d = false ∧
       (snapHasOutEdge snap n e d ∨ delta.is_edge_added n e d = true))) := by
  refine ⟨?_, ?_, ?_⟩
  · intro h
    rw [get_out_edges, if_pos h]
  · rw [get_out_edges]
    by_cases h : delta.is_node_deleted n = true
    · rw [if_pos h]
      exact List.Pairwise.nil
    · rw [if_neg h]
      exact List.sorted_mergeSort edgeLe_trans edgeLe_total _
  · intro e d
    by_cases h : delta.is_node_deleted n = true
    · rw [get_out_edges, if_pos h]
      simp only [List.not_mem_nil, false_iff]
      rintro ⟨hn, _⟩
      rw [h] at hn
      exact Bool.noConfusion hn
    · have hn : delta.is_node_deleted n = false := by
        cases hv : delta.is_node_deleted n
        · rfl
        · exact absurd hv h
      rw [get_out_edges, if_neg h]
      rw [List.mem_mergeSort, List.mem_append, mem_snapOutEdges, mem_deltaOutAdd]
      constructor
      · rintro (⟨hs, hd, he⟩ | ⟨ha, hd⟩)
        · exact ⟨hn, hd, he, Or.inl hs⟩
        · have he : delta.is_edge_deleted n e d = false := by
            cases hv : delta.is_edge_deleted n e d
            · rfl
            · exact absurd ⟨ha, hv⟩ (hI2 e d)
          exact ⟨hn, hd, he, Or.inr ha⟩
      · rintro ⟨_, hd, he, (hs | ha)⟩
        · exact Or.inl ⟨hs, hd, he⟩
        · exact Or.inr ⟨ha, hd⟩

/-- Conversion from the set-level cancellation invariant to the Bool form
used by the read-path claim. -/
theorem edgeExclusive_to_bool (delta : DeltaState) (h : edgeExclusive delta)
    (n e d : Nat) :
    ¬(delta.is_edge_added n e d = true ∧ delta.is_edge_deleted n e d = true) :=
  fun hc => h n ⟨e, d⟩ ⟨of_decide_eq_true hc.1, of_decide_eq_true hc.2⟩

/-- Witness for C9 at a concrete input: no snapshot, the overlay holding
one added edge 1 -(7)-> 2; the edge shows up in get_out_edges 1. -/
theorem C9_get_out_edges_spec_witness :
    (∀ e d, ¬((DeltaState.empty.add_edge 1 7 2).is_edge_added 1 e d = true ∧
              (DeltaState.empty.add_edge 1 7 2).is_edge_deleted 1 e d = true)) ∧
    (7, 2) ∈ get_out_edges none (DeltaState.empty.add_edge 1 7 2) 1 := by
  have hI2 := fun e d => edgeExclusive_to_bool (DeltaState.empty.add_edge 1 7 2)
    (edgeExclusive_add_edge DeltaState.empty edgeExclusive_empty 1 7 2) 1 e d
  refine ⟨hI2, ?_⟩
  exact ((C9_get_out_edges_spec none (DeltaState.empty.add_edge 1 7 2) 1 hI2).2.2 7 2).mpr
    ⟨by decide, by decide, by decide, Or.inr (by decide)⟩

end KiteDB
